import Mathlib

/-!
Verification development for the Strata database-migration backend.

The definitions below are shallow embeddings of the Python functions in
`backend/routes/migrate.py`, `backend/routes/validate.py`,
`backend/routes/extract.py` and `backend/ai.py`.  Strings are modelled with
Lean `String`/`List Char`; Python dictionaries keyed by strings are modelled
as association lists with insert-or-overwrite-in-place semantics (matching
CPython's insertion-ordered dicts); database cursors and the external
translation oracle are abstracted as explicit oracle parameters.
-/

set_option maxHeartbeats 4000000
set_option maxRecDepth 4000

namespace StrataSpec

/-! ### Python-style text primitives -/

/-- Python's whitespace set for `str.strip` / `str.isspace` / regex `\s`
(space, tab, newline, carriage return, vertical tab, form feed). -/
def pyIsSpace (c : Char) : Bool :=
  c == ' ' || c == '\t' || c == '\n' || c == '\r' ||
  c == Char.ofNat 11 || c == Char.ofNat 12

/-- Regex `\w` on ASCII input: letters, digits, underscore. -/
def isWordChar (c : Char) : Bool :=
  c.isAlphanum || c == '_'

/-- Python `str.strip()`. -/
def pyStrip (s : String) : String :=
  String.mk (((s.toList.dropWhile pyIsSpace).reverse.dropWhile pyIsSpace).reverse)

/-- Python `str.rstrip()` (whitespace only). -/
def pyRstrip (s : String) : String :=
  String.mk ((s.toList.reverse.dropWhile pyIsSpace).reverse)

/-- Python `str.rstrip(';')`. -/
def pyRstripSemi (s : String) : String :=
  String.mk ((s.toList.reverse.dropWhile (· == ';')).reverse)

/-- Python `str.lower()` (ASCII data in this code base). -/
def pyLower (s : String) : String :=
  String.mk (s.toList.map Char.toLower)

/-- Python `str.upper()` (ASCII data in this code base). -/
def pyUpper (s : String) : String :=
  String.mk (s.toList.map Char.toUpper)

/-- Python `needle in hay` on strings: substring containment. -/
def pyContains (hay needle : String) : Bool :=
  hay.toList.tails.any (fun t => needle.toList.isPrefixOf t)

/-- Python `s[:n]` on strings. -/
def pyTake (s : String) (n : Nat) : String :=
  String.mk (s.toList.take n)

/-- Python `s.split(';')`. -/
def pySplitSemi (s : String) : List String :=
  (s.toList.splitOn ';').map String.mk

/-- Python `s.count(c)` for a single character. -/
def countChar (s : String) (c : Char) : Nat :=
  s.toList.count c

/-- Python `not s or s.isspace()`: the string is empty or all whitespace. -/
def pyIsBlank (s : String) : Bool :=
  s.toList.all pyIsSpace

/-! ### Regex model for `re.findall(r'foreign key.*?references\s+(\w+)', ddl)`

The pattern is applied by `sort_tables_by_dependencies` to the lowercased
DDL text, so all literals here are lowercase.  `.` does not match a newline;
`.*?` is lazy, expanding one character at a time; `\s+` and `\w+` are greedy
but determinate because whitespace, word characters and the literals that
follow them are disjoint. -/

/-- Match an exact literal at the head of the input, returning the rest. -/
def stripLit : List Char → List Char → Option (List Char)
  | [], cs => some cs
  | _ :: _, [] => none
  | p :: ps, c :: cs => if p = c then stripLit ps cs else none

/-- Match `references\s+(\w+)` at the head of the input, returning the
captured word and the rest of the input after the match. -/
def refsTail (cs : List Char) : Option (String × List Char) :=
  match stripLit "references".toList cs with
  | none => none
  | some cs1 =>
    match cs1 with
    | [] => none
    | c :: rest =>
      if pyIsSpace c then
        let cs2 := rest.dropWhile pyIsSpace
        let w := cs2.takeWhile isWordChar
        if w.isEmpty then none else some (String.mk w, cs2.drop w.length)
      else none

/-- The lazy `.*?references\s+(\w+)` part: try `references…` at the current
position, otherwise consume one non-newline character and retry. -/
def lazyRefsScan : List Char → Option (String × List Char)
  | [] => none
  | c :: rest =>
    match refsTail (c :: rest) with
    | some r => some r
    | none => if c = '\n' then none else lazyRefsScan rest

/-- Try to match the whole pattern at the current position. -/
def tryFkAt (cs : List Char) : Option (String × List Char) :=
  match stripLit "foreign key".toList cs with
  | none => none
  | some cs1 => lazyRefsScan cs1

/-- `re.findall`: non-overlapping matches scanning left to right.  The fuel
argument only bounds the recursion; every step either ends the scan or
consumes at least one input character, so fuel `= input length + 1` never
runs out. -/
def fkFindAll : Nat → List Char → List String
  | 0, _ => []
  | _ + 1, [] => []
  | fuel + 1, c :: rest =>
    match tryFkAt (c :: rest) with
    | some (name, after) => name :: fkFindAll fuel after
    | none => fkFindAll fuel rest

/-- Foreign-key targets extracted from (already lowercased) DDL text,
as in `sort_tables_by_dependencies` (migrate.py lines 26-35). -/
def extract_fk_deps (lowDdl : String) : List String :=
  fkFindAll (lowDdl.toList.length + 1) lowDdl.toList

/-! ### Dependency Sequencer: `sort_tables_by_dependencies` (migrate.py 14-65) -/

/-- A well-formed table record: a dict carrying `name` and `ddl` keys. -/
structure PyTable where
  name : String
  ddl : String
deriving DecidableEq, Repr

/-- Python dict assignment `m[k] = v`: overwrite in place if the key exists,
otherwise append (CPython dicts preserve first-insertion order). -/
def dictInsert {α : Type} (m : List (String × α)) (k : String) (v : α) :
    List (String × α) :=
  if m.any (fun p => p.1 == k) then
    m.map (fun p => if p.1 == k then (k, v) else p)
  else m ++ [(k, v)]

/-- The `table_map` dict: table name → table record (migrate.py 21-24). -/
def build_table_map (tables : List PyTable) : List (String × PyTable) :=
  tables.foldl (fun m t => dictInsert m t.name t) []

/-- The `table_deps` dict: table name → foreign-key targets found in the
lowercased DDL (migrate.py 26-35).  The source fills `table_map` and
`table_deps` in the same loop; two folds over the same list build the
same two dicts. -/
def build_table_deps (tables : List PyTable) : List (String × List String) :=
  tables.foldl (fun m t => dictInsert m t.name (extract_fk_deps (pyLower t.ddl))) []

/-- The mutable state shared by the nested `visit` closure:
`visited`/`temp_visited` sets (kept as lists, most recent first) and the
`sorted_tables` output accumulator. -/
structure VisitState where
  visited : List String
  temp : List String
  sorted : List PyTable
deriving Repr

/-- The recursive `visit` closure of `sort_tables_by_dependencies`
(migrate.py 42-58).  The fuel argument only bounds the recursion depth:
`visit` pushes its argument onto `temp_visited` before recursing and never
recurses on a member of `temp_visited`, so the depth is bounded by the
number of distinct table names and fuel `= |table_map| + 1` never runs out
(proved below as part of `visit_ok`). -/
def visit (tm : List (String × PyTable)) (td : List (String × List String)) :
    Nat → String → VisitState → VisitState
  | 0, _, st => st
  | fuel + 1, name, st =>
    if name ∈ st.temp then st
    else if name ∈ st.visited then st
    else
      let st1 : VisitState := { st with temp := name :: st.temp }
      let deps := (List.lookup name td).getD []
      let st2 := deps.foldl
        (fun s d => if (List.lookup d tm).isSome then visit tm td fuel d s else s)
        st1
      { visited := name :: st2.visited,
        temp := st2.temp.erase name,
        sorted := st2.sorted ++ (List.lookup name tm).toList }

/-- The toplevel loop `for table_name in table_map: if not visited: visit`
(migrate.py 60-63). -/
def sortFold (tm : List (String × PyTable)) (td : List (String × List String)) :
    VisitState :=
  (tm.map Prod.fst).foldl
    (fun st name => if name ∈ st.visited then st
                    else visit tm td (tm.length + 1) name st)
    ⟨[], [], []⟩

/-- `sort_tables_by_dependencies` (migrate.py 14-65): topological sort of
table records by the foreign-key references found in their DDL. -/
def sort_tables_by_dependencies (tables : List PyTable) : List PyTable :=
  (sortFold (build_table_map tables) (build_table_deps tables)).sorted

/-- The dependency list the code derives for a table name. -/
def tableDepsOf (tables : List PyTable) (n : String) : List String :=
  (List.lookup n (build_table_deps tables)).getD []

/-- A name is present in the input set (has an entry in `table_map`). -/
def presentTable (tables : List PyTable) (n : String) : Bool :=
  (List.lookup n (build_table_map tables)).isSome

/-- The derived REFERENCES-dependency graph restricted to present tables:
`a` depends on `b` when `b` is extracted from `a`'s DDL and both are in the
input set. -/
def dependsOnT (tables : List PyTable) (a b : String) : Prop :=
  b ∈ tableDepsOf tables a ∧
  presentTable tables a = true ∧ presentTable tables b = true

/-- Dependency list of a name relative to a built `table_deps` dict. -/
def depsOfIn (td : List (String × List String)) (n : String) : List String :=
  (List.lookup n td).getD []

/-- A name has an entry in a built `table_map` dict. -/
def presentIn (tm : List (String × PyTable)) (n : String) : Prop :=
  (List.lookup n tm).isSome = true

/-- The dependency edge relation relative to built dicts. -/
def DOn (tm : List (String × PyTable)) (td : List (String × List String))
    (a b : String) : Prop :=
  b ∈ depsOfIn td a ∧ presentIn tm a ∧ presentIn tm b

/-- Every `table_map` entry's value carries its key as its name. -/
def TmWf (tm : List (String × PyTable)) : Prop :=
  ∀ p ∈ tm, (p.2).name = p.1

/-- The fold step used by `visit` over a table's dependency list. -/
def visitStep (tm : List (String × PyTable)) (td : List (String × List String))
    (fuel : Nat) : VisitState → String → VisitState :=
  fun s d => if (List.lookup d tm).isSome then visit tm td fuel d s else s

/-- The invariant maintained by the depth-first `visit`: the two sets are
duplicate-free lists of present names, disjoint from each other; the output
is exactly the looked-up records of the visited names in visiting order;
and (whenever the dependency graph is acyclic) every emitted table is
preceded by all its present dependencies. -/
structure SInv (tm : List (String × PyTable)) (td : List (String × List String))
    (st : VisitState) : Prop where
  temp_nd : st.temp.Nodup
  temp_pres : ∀ x ∈ st.temp, presentIn tm x
  vis_nd : st.visited.Nodup
  vis_pres : ∀ x ∈ st.visited, presentIn tm x
  temp_vis : ∀ x ∈ st.temp, x ∉ st.visited
  out_def : st.sorted = st.visited.reverse.filterMap (fun n => List.lookup n tm)
  out_good : (∀ a, ¬ Relation.TransGen (DOn tm td) a a) →
    ∀ l1 t l2, st.sorted = l1 ++ t :: l2 →
      ∀ d ∈ depsOfIn td t.name, presentIn tm d → d ∈ l1.map PyTable.name

/-! ### DDL statement reassembly: `reassemble_ai_ddl_statements`
(migrate.py 264-339) -/

/-- One pass of the reassembly loop, carrying the accumulated statements,
the statement under construction, the `in_create_table` flag and the
running parenthesis depth. -/
def reassembleLoop :
    List String → List String → String → Bool → Int → List String
  | [], stmts, cur, _, _ =>
      if pyStrip cur == "" then stmts else stmts ++ [pyStrip cur]
  | item :: rest, stmts, cur, inCT, depth =>
    let line := pyStrip item
    if line == "" || line == ";" then
      if pyStrip cur == "" then reassembleLoop rest stmts cur inCT depth
      else reassembleLoop rest (stmts ++ [pyStrip cur]) "" false 0
    else if "CREATE TABLE".toList.isPrefixOf (pyUpper line).toList then
      reassembleLoop rest stmts line true
        ((countChar line '(' : Int) - (countChar line ')' : Int))
    else if inCT then
      let cur' := cur ++ " " ++ line
      let depth' := depth + (countChar line '(' : Int) - (countChar line ')' : Int)
      reassembleLoop rest stmts cur' (if depth' ≤ 0 then false else true) depth'
    else
      let stmts' := if pyStrip cur == "" then stmts else stmts ++ [pyStrip cur]
      reassembleLoop rest stmts' line false depth

/-- `reassemble_ai_ddl_statements` (migrate.py 264-339): rebuild complete
SQL statements from a flat list of text fragments.  Only string items
matter; the source skips non-string items, and all inputs considered here
are strings. -/
def reassemble_ai_ddl_statements (ddl_list : List String) : List String :=
  reassembleLoop ddl_list [] "" false 0

/-! ### `extract_ddl_statements` (migrate.py 341-408) -/

/-- The structured dict shape `{tables: [...], indexes: [...], ...}`.
The extra keys hold items whose `ddl` field is the only part the code
reads, so they are modelled as the lists of those DDL texts. -/
structure DdlObj where
  tables : List PyTable
  indexes : List String
  constraints : List String
  views : List String
  triggers : List String
  procedures : List String
  functions : List String
deriving DecidableEq, Repr

/-- The three input shapes accepted for translated DDL: a structured
object, a flat list of fragments, or one large string. -/
inductive DdlData where
  | obj (o : DdlObj)
  | fragments (items : List String)
  | raw (text : String)
deriving DecidableEq, Repr

/-- Cleaning applied to each structured-entry DDL (migrate.py 360-368):
strip, drop one trailing semicolon then strip, rstrip, keep if non-empty. -/
def cleanStructuredDdl (s : String) : Option String :=
  let d := pyStrip s
  let d := if d.toList.getLast? == some ';' then pyStrip (String.mk d.toList.dropLast)
           else d
  let d := pyRstrip d
  if d == "" then none else some d

/-- `extract_ddl_statements` (migrate.py 341-408): extract an ordered list
of DDL statements from any of the three shapes. -/
def extract_ddl_statements (ddl_data : DdlData) : List String :=
  match ddl_data with
  | .obj o =>
    let sortedTables := sort_tables_by_dependencies o.tables
    let tableStmts := sortedTables.filterMap (fun t => cleanStructuredDdl t.ddl)
    let extraStmts :=
      (o.indexes ++ o.constraints ++ o.views ++ o.triggers ++
       o.procedures ++ o.functions).filterMap cleanStructuredDdl
    tableStmts ++ extraStmts
  | .fragments items => reassemble_ai_ddl_statements items
  | .raw s =>
    (pySplitSemi s).filterMap
      (fun part => let c := pyStrip part; if c == "" then none else some c)

/-- Whitespace/semicolon-insensitive view of a SQL statement, used to state
in what sense the fragment path and the split path agree. -/
def normSql (s : String) : String :=
  String.mk (s.toList.filter (fun c => !(pyIsSpace c) && c != ';'))

/-! ### Structure-migration statement executor: the execution loop of
`apply_ddl_to_target` (migrate.py 458-515)

The database cursor is abstracted as an oracle `env` mapping the list of
previously attempted statements and the next statement to `none` (success)
or `some msg` (raised error message). -/

/-- Regex model for
`create\s+table(?:\s+if\s+not\s+exists)?\s+["\']?(\w+)["\']?`
applied case-insensitively by `re.search` (migrate.py 482).  Helper:
case-insensitive literal match. -/
def stripLitCI : List Char → List Char → Option (List Char)
  | [], cs => some cs
  | _ :: _, [] => none
  | p :: ps, c :: cs => if p.toLower = c.toLower then stripLitCI ps cs else none

/-- `\s+` (at least one whitespace character, consumed greedily). -/
def ws1 (cs : List Char) : Option (List Char) :=
  match cs with
  | [] => none
  | c :: rest => if pyIsSpace c then some (rest.dropWhile pyIsSpace) else none

/-- `\s+["\']?(\w+)` : the mandatory tail of the CREATE TABLE name pattern;
the captured word keeps its original case. -/
def ctNameTail (cs : List Char) : Option String :=
  match ws1 cs with
  | none => none
  | some cs1 =>
    let cs2 := match cs1 with
               | c :: rest =>
                 if c = Char.ofNat 34 || c = Char.ofNat 39 then rest else cs1
               | [] => cs1
    let w := cs2.takeWhile isWordChar
    if w.isEmpty then none else some (String.mk w)

/-- The optional `(?:\s+if\s+not\s+exists)?` group followed by the name
tail; the greedy group is tried first, exactly as the regex engine does. -/
def ctAfterTable (cs : List Char) : Option String :=
  let withIf :=
    match ws1 cs with
    | none => none
    | some c1 =>
      match stripLitCI "if".toList c1 with
      | none => none
      | some c2 =>
        match ws1 c2 with
        | none => none
        | some c3 =>
          match stripLitCI "not".toList c3 with
          | none => none
          | some c4 =>
            match ws1 c4 with
            | none => none
            | some c5 =>
              match stripLitCI "exists".toList c5 with
              | none => none
              | some c6 => ctNameTail c6
  match withIf with
  | some w => some w
  | none => ctNameTail cs

/-- Try the full pattern at the current position. -/
def tryCreateTableAt (cs : List Char) : Option String :=
  match stripLitCI "create".toList cs with
  | none => none
  | some c1 =>
    match ws1 c1 with
    | none => none
    | some c2 =>
      match stripLitCI "table".toList c2 with
      | none => none
      | some c3 => ctAfterTable c3

/-- `re.search`: try the pattern at every position, left to right. -/
def searchCreateTableName : List Char → Option String
  | [] => none
  | c :: rest =>
    match tryCreateTableAt (c :: rest) with
    | some w => some w
    | none => searchCreateTableName rest

/-- Extract the table name from a failing statement (migrate.py 482-484). -/
def extract_create_table_name (s : String) : Option String :=
  searchCreateTableName s.toList

/-- Outcome of the statement-execution loop: the attempted statements in
order, whether the transaction was committed or rolled back, and the error
message raised to the caller (wrapped as in migrate.py 510). -/
structure ApplyResult where
  trace : List String
  committed : Bool
  rolledBack : Bool
  error : Option String
deriving DecidableEq, Repr

/-- The per-statement execution loop with already-exists recovery
(migrate.py 458-515).  `env hist s` is the cursor's response to executing
`s` after the attempts `hist`: `none` = success, `some msg` = raised error.
On an unrecoverable error the loop stops, the transaction is rolled back
and the wrapped error is reported; on completion it commits. -/
def apply_ddl_to_target (env : List String → String → Option String) :
    List String → List String → ApplyResult
  | [], hist => ⟨hist, true, false, none⟩
  | stmt :: rest, hist =>
    if pyIsBlank stmt then apply_ddl_to_target env rest hist
    else
      let cleaned := pyRstripSemi (pyStrip stmt)
      match env hist cleaned with
      | none => apply_ddl_to_target env rest (hist ++ [cleaned])
      | some msg =>
        let m := pyLower msg
        if pyContains m "already exists" || pyContains m "duplicate" then
          match extract_create_table_name cleaned with
          | some tname =>
            let dropStmt := "DROP TABLE IF EXISTS \"" ++ tname ++ "\" CASCADE"
            let hist1 := hist ++ [cleaned]
            match env hist1 dropStmt with
            | some _ =>
              ⟨hist1 ++ [dropStmt], false, true,
               some ("Failed to apply DDL to target database: " ++ msg)⟩
            | none =>
              let hist2 := hist1 ++ [dropStmt]
              match env hist2 cleaned with
              | some _ =>
                ⟨hist2 ++ [cleaned], false, true,
                 some ("Failed to apply DDL to target database: " ++ msg)⟩
              | none => apply_ddl_to_target env rest (hist2 ++ [cleaned])
          | none => apply_ddl_to_target env rest (hist ++ [cleaned])
        else
          ⟨hist ++ [cleaned], false, true,
           some ("Failed to apply DDL to target database: " ++ msg)⟩

/-! ### Schema Translator: `translate_schema` (ai.py 13-133)

The external oracle and the JSON parse of its reply are abstracted as an
`OracleOutcome`; every branch of the source returns a result instead of
raising, and the embedding mirrors each returned structure exactly. -/

/-- A translation result: the `{translated_ddl, notes}` dict. -/
structure TranslationResult where
  translated_ddl : DdlData
  notes : String
deriving DecidableEq, Repr

/-- What happens when the oracle is consulted: the API call raises, the
reply has no content, the (fence-stripped) content fails to parse as JSON,
or a parsed result is obtained. -/
inductive OracleOutcome where
  | callError (msg : String)
  | noContent
  | badJson (content : String)
  | parsed (result : TranslationResult)
deriving DecidableEq, Repr

/-- An object shape holding only a `tables` list. -/
def tablesOnly (ts : List PyTable) : DdlData :=
  .obj ⟨ts, [], [], [], [], [], []⟩

/-- The fixed five-table demo schema returned when no API key is
configured (ai.py 20-46). -/
def demoTables : List PyTable :=
  [⟨"customers",
    "CREATE TABLE customers (id SERIAL PRIMARY KEY, name VARCHAR(120) NOT NULL, email VARCHAR(255) NOT NULL, city VARCHAR(120) NOT NULL, created_at TIMESTAMP NOT NULL DEFAULT CURRENT_TIMESTAMP)"⟩,
   ⟨"employees",
    "CREATE TABLE employees (id SERIAL PRIMARY KEY, first_name VARCHAR(80) NOT NULL, last_name VARCHAR(80) NOT NULL, title VARCHAR(120) NOT NULL, hired_on DATE NOT NULL, salary DECIMAL(12,2) NOT NULL)"⟩,
   ⟨"products",
    "CREATE TABLE products (id SERIAL PRIMARY KEY, sku VARCHAR(64) NOT NULL, name VARCHAR(160) NOT NULL, price DECIMAL(10,2) NOT NULL, in_stock SMALLINT NOT NULL DEFAULT 1)"⟩,
   ⟨"orders",
    "CREATE TABLE orders (id SERIAL PRIMARY KEY, customer_id INTEGER NOT NULL, order_date TIMESTAMP NOT NULL, status VARCHAR(20) NOT NULL DEFAULT 'PENDING', total DECIMAL(12,2) NOT NULL, FOREIGN KEY (customer_id) REFERENCES customers(id))"⟩,
   ⟨"order_items",
    "CREATE TABLE order_items (id SERIAL PRIMARY KEY, order_id INTEGER NOT NULL, product_id INTEGER NOT NULL, qty INTEGER NOT NULL, unit_price DECIMAL(10,2) NOT NULL, line_total DECIMAL(12,2) NOT NULL, FOREIGN KEY (order_id) REFERENCES orders(id), FOREIGN KEY (product_id) REFERENCES products(id))"⟩]

/-- The demo-mode result (ai.py 20-46). -/
def demoTranslationResult : TranslationResult :=
  ⟨tablesOnly demoTables,
   "Schema translated successfully (demo mode - no AI key configured). This is a simplified structure for testing purposes."⟩

/-- The single-table fallback returned on a JSON parse failure
(ai.py 115-125). -/
def parseFailureTables : List PyTable :=
  [⟨"customers",
    "CREATE TABLE customers (id SERIAL PRIMARY KEY, name VARCHAR(120) NOT NULL, email VARCHAR(255) NOT NULL, city VARCHAR(120) NOT NULL, created_at TIMESTAMP NOT NULL DEFAULT CURRENT_TIMESTAMP)"⟩]

/-- `translate_schema` (ai.py 13-133). -/
def translate_schema (apiKeyPresent : Bool) (outcome : OracleOutcome) :
    TranslationResult :=
  if apiKeyPresent then
    match outcome with
    | .parsed r => r
    | .noContent => ⟨tablesOnly [], "AI returned empty response"⟩
    | .badJson content =>
      ⟨tablesOnly parseFailureTables,
       "AI translation returned non-JSON response: " ++ pyTake content 200 ++ "..."⟩
    | .callError msg => ⟨tablesOnly [], "AI translation failed: " ++ msg⟩
  else demoTranslationResult

/-! ### Validator (validate.py) -/

/-- Finding status values. -/
inductive VStatus where
  | Pass
  | Fail
  | Warning
deriving DecidableEq, Repr

/-- A validation finding (validate.py result dicts). -/
structure Finding where
  category : String
  status : VStatus
  errorDetails : Option String
  suggestedFix : Option String
  confidenceScore : ℚ
deriving DecidableEq, Repr

/-- `EQUIVALENT_TYPES` (validate.py 25-40). -/
def EQUIVALENT_TYPES : List (String × String) :=
  [("int", "integer"),
   ("integer", "int"),
   ("varchar", "character varying"),
   ("character varying", "varchar"),
   ("datetime", "timestamp without time zone"),
   ("timestamp without time zone", "datetime"),
   ("tinyint", "smallint"),
   ("smallint", "tinyint"),
   ("bigint", "bigint"),
   ("decimal", "numeric"),
   ("numeric", "decimal"),
   ("double", "double precision"),
   ("double precision", "double")]

/-- The normalisation applied to both arguments (validate.py 44-46). -/
def normalizeType (t : String) : String :=
  pyLower (pyStrip t)

/-- `are_equivalent_types` (validate.py 42-59). -/
def are_equivalent_types (type1 type2 : String) : Bool :=
  let t1 := normalizeType type1
  let t2 := normalizeType type2
  if t1 == t2 then true
  else if List.lookup t1 EQUIVALENT_TYPES == some t2 then true
  else if List.lookup t2 EQUIVALENT_TYPES == some t1 then true
  else false

/-- `validate_connections` (validate.py 134-179).  Connection attempts are
abstracted as `none` (success) or `some msg` (raised error); when the
source check fails the function returns at once with the single failure
finding. -/
def validate_connections (srcRes tgtRes : Option String) : List Finding :=
  match srcRes with
  | some e =>
    [⟨"Source Connection", .Fail, some e,
      some "Check source database connection settings", 9/10⟩]
  | none =>
    ⟨"Source Connection", .Pass, none, none, 1⟩ ::
    (match tgtRes with
     | none => [⟨"Target Connection", .Pass, none, none, 1⟩]
     | some e =>
       [⟨"Target Connection", .Fail, some e,
         some "Check target database connection settings", 9/10⟩])

/-- `run_comprehensive_validation` (validate.py 578-662).  The session
lookup is abstracted as `sessionOk` (with the raised message `sessionErr`
otherwise); the later validation phases query live databases and are
abstracted as the finding lists they return; each of those helpers catches
its own exceptions and returns a list, so no exception escapes them.  After
Phase 1 the run short-circuits when any connection finding failed
(validate.py 602-605). -/
def run_comprehensive_validation (sessionOk : Bool) (sessionErr : String)
    (srcRes tgtRes : Option String)
    (rowCountResults structureResults samplingResults contentResults
     testingResults performanceResults checkpointResults : List Finding) :
    List Finding :=
  if sessionOk then
    let connectionResults := validate_connections srcRes tgtRes
    if connectionResults.any (fun r => r.status == .Fail) then connectionResults
    else
      connectionResults ++ rowCountResults ++ structureResults ++
      samplingResults ++ contentResults ++ testingResults ++
      performanceResults ++ checkpointResults
  else
    [⟨"Validation Process", .Fail, some sessionErr,
      some "Check validation process implementation", 1/2⟩]

/-! ### Schema Extractor data profile (extract.py 532-589) -/

/-- Column metadata from `information_schema.columns`. -/
structure ColumnInfo where
  column_name : String
  data_type : String
  is_nullable : String
deriving DecidableEq, Repr

/-- Outcome of the per-column null-count/distinct-count queries; the
source swallows a failure and records zeros. -/
inductive ColQuery where
  | ok (null_count distinct_count : Nat)
  | err
deriving DecidableEq, Repr

/-- A per-column profile entry. -/
structure ColumnStat where
  name : String
  data_type : String
  nullable : Bool
  null_count : Nat
  distinct_count : Nat
  null_ratio : ℚ
deriving DecidableEq, Repr

/-- One column's stats (extract.py 550-579): the ratio is
`null_count / row_count if row_count > 0 else 0`, and the exception branch
records a zero ratio. -/
def build_column_stat (row_count : Nat) (c : ColumnInfo) (q : ColQuery) :
    ColumnStat :=
  match q with
  | .ok nc dc =>
    ⟨c.column_name, c.data_type, c.is_nullable == "YES", nc, dc,
     if row_count > 0 then (nc : ℚ) / (row_count : ℚ) else 0⟩
  | .err => ⟨c.column_name, c.data_type, c.is_nullable == "YES", 0, 0, 0⟩

/-- A table's data-profile entry. -/
structure TableProfile where
  row_count : Nat
  columns : List ColumnStat
deriving DecidableEq, Repr

/-- The per-table profile loop body (extract.py 534-589), given the row
count and the column list with each column's query outcome. -/
def build_data_profile_entry (row_count : Nat)
    (cols : List (ColumnInfo × ColQuery)) : TableProfile :=
  ⟨row_count, cols.map (fun p => build_column_stat row_count p.1 p.2)⟩

/-! ### PhaseStatus percent traces

Each long-running task mutates its status record's `percent` field at fixed
program points; the lists below record, in program order, the values a
complete successful run writes. -/

/-- The phase table of `run_extraction_task` (extract.py 1396-1403). -/
def extraction_phases : List (String × Nat) :=
  [("Loading analysis results", 10),
   ("Generating DDL scripts", 30),
   ("Extracting constraints", 50),
   ("Building dependency graph", 70),
   ("Preparing type mappings", 85),
   ("Finalizing extraction", 100)]

/-- Percent values written by a successful `run_extraction_task`
(extract.py 1367-1431): the reset to 0, the simulated phase loop over all
phases but the last, then 60 for the actual DDL extraction, then 100. -/
def extraction_percent_writes : List Nat :=
  0 :: (extraction_phases.dropLast.map Prod.snd) ++ [60, 100]

/-- Percent values written by a successful `run_structure_migration_task`
(migrate.py 517-697). -/
def structure_migration_percent_writes : List Nat :=
  [0, 10, 20, 40, 60, 70, 75, 80, 100]

/-- The hardcoded table list of `run_data_migration_task`
(migrate.py 757). -/
def data_migration_tables : List String :=
  ["customers", "employees", "products", "orders", "order_items"]

/-- Percent values written by a successful `run_data_migration_task`
(migrate.py 710-874): the fixed phase values, the per-table progress
`min(40 + int((i+1)/total*50), 90)`, then 95 and 100. -/
def data_migration_percent_writes : List Nat :=
  [0, 10, 20, 30, 40] ++
  ((List.range data_migration_tables.length).map
    (fun i => min (40 + ((i + 1) * 50) / data_migration_tables.length) 90)) ++
  [95, 100]

/-- Percent values written by a successful validation run
(validate.py 664-692 and 578-651). -/
def validation_percent_writes : List Nat :=
  [0, 5, 15, 30, 40, 50, 70, 85, 95, 100]

/-! ### Concrete fixtures used by the scenario theorems -/

/-- The `orders` table of the acyclic-ordering scenario: a foreign key to
`customers`. -/
def ordersTable : PyTable :=
  ⟨"orders",
   "CREATE TABLE orders (id INT, customer_id INT, FOREIGN KEY (customer_id) REFERENCES customers(id))"⟩

/-- The `customers` table of the acyclic-ordering scenario: no foreign
key. -/
def customersTable : PyTable :=
  ⟨"customers", "CREATE TABLE customers (id INT, name VARCHAR(100))"⟩

/-- Table `a` of the cycle-tolerance scenario: references `b`. -/
def cycleTableA : PyTable :=
  ⟨"a", "create table a (bid int, foreign key (bid) references b(id))"⟩

/-- Table `b` of the cycle-tolerance scenario: references `a`. -/
def cycleTableB : PyTable :=
  ⟨"b", "create table b (aid int, foreign key (aid) references a(id))"⟩

/-- A table referencing a name absent from the input set. -/
def danglingTable : PyTable :=
  ⟨"c", "create table c (mid int, foreign key (mid) references missing(id))"⟩

/-- A cursor oracle for the already-exists recovery scenario: the very
first execution of the CREATE TABLE statement fails with an
"already exists" error; every later statement (the DROP and the retry)
succeeds. -/
def alreadyExistsEnv : List String → String → Option String :=
  fun hist s =>
    if s == "CREATE TABLE x (id INT)" && hist.isEmpty then
      some "ERROR: relation \"x\" already exists"
    else none

/-- A cursor oracle whose response to one statement is an unrecoverable
error. -/
def fatalEnv : List String → String → Option String :=
  fun _ s =>
    if s == "CREATE TABLE y (id INT)" then some "syntax error at or near Y"
    else none

/-! ## Theorems -/

/-- C2 counterexample: the three-fragment shape and the pre-joined-string
shape do NOT produce the same statement.  The fragment path joins the
pieces with single spaces and keeps the trailing semicolon
(`"CREATE TABLE t ( id INT );"`), while the split-on-`;` path drops the
semicolon and keeps the original spacing (`"CREATE TABLE t (id INT)"`). -/
theorem reassemble_vs_split_shape_mismatch :
    extract_ddl_statements (.fragments ["CREATE TABLE t (", "id INT", ");"]) ≠
    extract_ddl_statements (.raw "CREATE TABLE t (id INT);") := by
  decide

/-- C2 amended: both shapes yield exactly one reassembled statement, and
the two statements agree once whitespace and semicolons are ignored; they
differ only in the space-joining of fragments and the trailing
semicolon. -/
theorem reassemble_vs_split_normalized_agreement :
    extract_ddl_statements (.fragments ["CREATE TABLE t (", "id INT", ");"]) =
      ["CREATE TABLE t ( id INT );"] ∧
    extract_ddl_statements (.raw "CREATE TABLE t (id INT);") =
      ["CREATE TABLE t (id INT)"] ∧
    (extract_ddl_statements
        (.fragments ["CREATE TABLE t (", "id INT", ");"])).map normSql =
      (extract_ddl_statements (.raw "CREATE TABLE t (id INT);")).map normSql := by
  exact ⟨by decide, by decide, by decide⟩

/-- C3 counterexample: the extraction task's percent sequence is not
monotonically non-decreasing: the simulated phase loop reaches 85 and the
subsequent real-extraction step writes 60. -/
theorem extraction_percent_not_monotonic :
    ¬ List.Pairwise (· ≤ ·) extraction_percent_writes := by
  decide

/-- C3 amended: within a successful run, the percent sequences of
structure migration, data migration and validation are monotonically
non-decreasing; the extraction task's sequence is
0,10,30,50,70,85,60,100, which decreases exactly once (85 to 60); all
values written by all four stages stay within [0, 100]. -/
theorem percent_writes_amended_monotonicity :
    List.Pairwise (· ≤ ·) structure_migration_percent_writes ∧
    List.Pairwise (· ≤ ·) data_migration_percent_writes ∧
    List.Pairwise (· ≤ ·) validation_percent_writes ∧
    extraction_percent_writes = [0, 10, 30, 50, 70, 85, 60, 100] ∧
    (extraction_percent_writes.all (· ≤ 100) &&
     structure_migration_percent_writes.all (· ≤ 100) &&
     data_migration_percent_writes.all (· ≤ 100) &&
     validation_percent_writes.all (· ≤ 100)) = true := by
  exact ⟨by decide, by decide, by decide, by decide, by decide⟩

/-- C4: if the source-connection check fails during validation, the run
short-circuits after Phase 1 and the result list is exactly the single
Fail finding for the source connection; no row-count, structure or later
findings appear. -/
theorem validation_short_circuit_on_source_failure
    (sessionErr emsg : String) (tgtRes : Option String)
    (rcr str smp cnt tst prf chk : List Finding) :
    run_comprehensive_validation true sessionErr (some emsg) tgtRes
      rcr str smp cnt tst prf chk =
    [⟨"Source Connection", .Fail, some emsg,
      some "Check source database connection settings", 9/10⟩] := by
  rfl

/-- C4 witness: the short-circuit at a concrete failing source
connection. -/
theorem validation_short_circuit_witness :
    run_comprehensive_validation true "" (some "connection refused") none
      [] [] [] [] [] [] [] =
    [⟨"Source Connection", .Fail, some "connection refused",
      some "Check source database connection settings", 9/10⟩] :=
  validation_short_circuit_on_source_failure "" "connection refused" none
    [] [] [] [] [] [] []

/-- C5: `are_equivalent_types` is symmetric for all pairs of strings, and
reflexive for strings identical after trimming and lowercasing. -/
theorem are_equivalent_types_symm_refl :
    (∀ x y, are_equivalent_types x y = are_equivalent_types y x) ∧
    (∀ x y, normalizeType x = normalizeType y →
      are_equivalent_types x y = true) := by
  constructor
  · intro x y
    unfold are_equivalent_types
    by_cases h1 : normalizeType x = normalizeType y
    · simp [h1]
    · have h1' : ¬ normalizeType y = normalizeType x := fun h => h1 h.symm
      by_cases h2 :
          List.lookup (normalizeType x) EQUIVALENT_TYPES = some (normalizeType y) <;>
        by_cases h3 :
          List.lookup (normalizeType y) EQUIVALENT_TYPES = some (normalizeType x) <;>
        simp [h1, h1', h2, h3]
  · intro x y h
    simp [are_equivalent_types, h]

/-- C5 witness: symmetry and normalized reflexivity at concrete types. -/
theorem are_equivalent_types_witness :
    are_equivalent_types "  INT " "int" = true ∧
    are_equivalent_types "varchar" "character varying" =
      are_equivalent_types "character varying" "varchar" :=
  ⟨are_equivalent_types_symm_refl.2 "  INT " "int" (by decide),
   are_equivalent_types_symm_refl.1 "varchar" "character varying"⟩

/-- C6: in a data profile for a table whose row count is 0, every column's
null ratio is 0; the ratio is computed under a `row_count > 0` guard, so
no division by zero occurs (the zero-row branch is the constant 0). -/
theorem null_ratio_zero_when_no_rows
    (cols : List (ColumnInfo × ColQuery)) :
    ((build_data_profile_entry 0 cols).columns.all
      (fun s => s.null_ratio == 0)) = true ∧
    (∀ c q, (build_column_stat 0 c q).null_ratio = 0) := by
  constructor
  · rw [List.all_eq_true]
    intro s hs
    simp only [build_data_profile_entry, List.mem_map] at hs
    obtain ⟨⟨c, q⟩, _, rfl⟩ := hs
    cases q <;> simp [build_column_stat]
  · intro c q
    cases q <;> simp [build_column_stat]

/-- C6 witness: a zero-row table profile with a concrete column list. -/
theorem null_ratio_zero_witness :
    ((build_data_profile_entry 0
        [(⟨"id", "int", "NO"⟩, ColQuery.ok 0 0),
         (⟨"name", "varchar", "YES"⟩, ColQuery.err)]).columns.all
      (fun s => s.null_ratio == 0)) = true :=
  (null_ratio_zero_when_no_rows
    [(⟨"id", "int", "NO"⟩, ColQuery.ok 0 0),
     (⟨"name", "varchar", "YES"⟩, ColQuery.err)]).1

/-- C7: on the two-table cycle a→b→a the depth-first visit terminates and
emits each table exactly once, with no error: the member whose dependency
is re-entered first (`b`) is emitted first, then `a`. -/
theorem cycle_tolerance_two_tables :
    sort_tables_by_dependencies [cycleTableA, cycleTableB] =
      [cycleTableB, cycleTableA] ∧
    (sort_tables_by_dependencies [cycleTableA, cycleTableB]).count cycleTableA = 1 ∧
    (sort_tables_by_dependencies [cycleTableA, cycleTableB]).count cycleTableB = 1 := by
  exact ⟨by decide, by decide, by decide⟩

/-- C8: a statement failing with an "already exists"/"duplicate" message
triggers extraction of the table name from the failing statement, a
`DROP TABLE IF EXISTS <name> CASCADE`, and a retry of the original
statement (shown on the concrete scenario, where the run then commits);
any other statement failure stops the loop immediately, rolls the target
transaction back, and reports the wrapped error without executing further
statements. -/
theorem apply_ddl_already_exists_retry_and_abort :
    (apply_ddl_to_target alreadyExistsEnv ["CREATE TABLE x (id INT)"] [] =
      ⟨["CREATE TABLE x (id INT)", "DROP TABLE IF EXISTS \"x\" CASCADE",
        "CREATE TABLE x (id INT)"], true, false, none⟩) ∧
    (∀ env s rest msg, pyIsBlank s = false →
      env [] (pyRstripSemi (pyStrip s)) = some msg →
      pyContains (pyLower msg) "already exists" = false →
      pyContains (pyLower msg) "duplicate" = false →
      apply_ddl_to_target env (s :: rest) [] =
        ⟨[pyRstripSemi (pyStrip s)], false, true,
         some ("Failed to apply DDL to target database: " ++ msg)⟩) := by
  constructor
  · decide
  · intro env s rest msg hblank herr h1 h2
    rw [apply_ddl_to_target]
    rw [hblank]
    simp only [Bool.false_eq_true, if_false]
    rw [herr]
    simp only [h1, h2, Bool.or_self, Bool.false_eq_true, if_false,
      List.nil_append]

/-- C8 witness: an unrecoverable error on the first statement aborts the
run with a rollback and the second statement is never attempted. -/
theorem apply_ddl_abort_witness :
    apply_ddl_to_target fatalEnv
      ["CREATE TABLE y (id INT)", "CREATE TABLE z (id INT)"] [] =
    ⟨["CREATE TABLE y (id INT)"], false, true,
     some "Failed to apply DDL to target database: syntax error at or near Y"⟩ :=
  apply_ddl_already_exists_retry_and_abort.2 fatalEnv "CREATE TABLE y (id INT)"
    ["CREATE TABLE z (id INT)"] "syntax error at or near Y"
    (by decide) (by decide) (by decide) (by decide)

/-- C9: with no oracle credential the translator returns the fixed
non-empty demo bundle (which contains a `customers` table DDL and notes
flagging demo mode); an oracle call failure, an empty reply or a JSON
parse failure each return a deterministic fallback result instead of
raising. -/
theorem translate_schema_fallback_behavior :
    (∀ o, translate_schema false o = demoTranslationResult) ∧
    (demoTables.any (fun t => t.name == "customers" &&
        pyContains t.ddl "CREATE TABLE customers")) = true ∧
    pyContains demoTranslationResult.notes "demo mode" = true ∧
    (∀ msg, translate_schema true (.callError msg) =
      ⟨tablesOnly [], "AI translation failed: " ++ msg⟩) ∧
    (∀ c, translate_schema true (.badJson c) =
      ⟨tablesOnly parseFailureTables,
       "AI translation returned non-JSON response: " ++ pyTake c 200 ++ "..."⟩) ∧
    translate_schema true .noContent =
      ⟨tablesOnly [], "AI returned empty response"⟩ := by
  exact ⟨fun _ => rfl, by decide, by decide, fun _ => rfl, fun _ => rfl, rfl⟩

/-- C9 witness: the demo fallback at a concrete outcome. -/
theorem translate_schema_fallback_witness :
    translate_schema false (.callError "no network") = demoTranslationResult :=
  translate_schema_fallback_behavior.1 (.callError "no network")

/-! ### Correctness of the Dependency Sequencer: helper lemmas -/

theorem lookup_cons_ite {α : Type} (a k : String) (v : α) (es : List (String × α)) :
    List.lookup a ((k, v) :: es) = if a == k then some v else List.lookup a es := by
  cases h : a == k <;> simp [List.lookup_cons, h]

theorem lookup_isSome_iff {α : Type} (m : List (String × α)) (a : String) :
    (List.lookup a m).isSome = true ↔ a ∈ m.map Prod.fst := by
  induction m with
  | nil => simp [List.lookup]
  | cons p m ih =>
    obtain ⟨k, v⟩ := p
    rw [lookup_cons_ite]
    by_cases h : a = k
    · simp [h]
    · have hb : (a == k) = false := by simp [h]
      simp [hb, h, ih]

theorem lookup_mem {α : Type} {m : List (String × α)} {a : String} {v : α}
    (h : List.lookup a m = some v) : (a, v) ∈ m := by
  induction m with
  | nil => simp [List.lookup] at h
  | cons p m ih =>
    obtain ⟨k, w⟩ := p
    rw [lookup_cons_ite] at h
    by_cases hak : a = k
    · subst hak
      rw [if_pos (by simp)] at h
      obtain rfl := Option.some.inj h
      exact List.mem_cons_self _ _
    · rw [if_neg (by simp [hak])] at h
      exact List.mem_cons_of_mem _ (ih h)

theorem dictInsert_mem {α : Type} {m : List (String × α)} {k : String} {v : α}
    {q : String × α} (h : q ∈ dictInsert m k v) : q ∈ m ∨ q = (k, v) := by
  unfold dictInsert at h
  by_cases hc : (m.any (fun p => p.1 == k)) = true
  · rw [if_pos hc] at h
    obtain ⟨p, hp, hq⟩ := List.mem_map.mp h
    by_cases hpk : (p.1 == k) = true
    · rw [if_pos hpk] at hq
      exact Or.inr hq.symm
    · rw [if_neg hpk] at hq
      exact Or.inl (hq ▸ hp)
  · rw [if_neg hc] at h
    rcases List.mem_append.mp h with h | h
    · exact Or.inl h
    · exact Or.inr (by simpa using h)

theorem build_table_map_wf (ts : List PyTable) :
    ∀ p ∈ build_table_map ts, (p.2).name = p.1 := by
  suffices h : ∀ (l : List PyTable) (m : List (String × PyTable)),
      (∀ p ∈ m, (p.2).name = p.1) →
      ∀ p ∈ l.foldl (fun m t => dictInsert m t.name t) m, (p.2).name = p.1 by
    exact h ts [] (by simp)
  intro l
  induction l with
  | nil => intro m hm; simpa using hm
  | cons t l ih =>
    intro m hm p hp
    rw [List.foldl_cons] at hp
    refine ih (dictInsert m t.name t) ?_ p hp
    intro q hq
    rcases dictInsert_mem hq with h | h
    · exact hm q h
    · rw [h]

theorem lookup_name_eq {tm : List (String × PyTable)}
    (wf : ∀ p ∈ tm, (p.2).name = p.1)
    {n : String} {v : PyTable} (h : List.lookup n tm = some v) : v.name = n :=
  wf (n, v) (lookup_mem h)

theorem length_le_of_nodup_subset {l1 l2 : List String} (h1 : l1.Nodup)
    (h2 : ∀ x ∈ l1, x ∈ l2) : l1.length ≤ l2.length := by
  calc l1.length = l1.toFinset.card := (List.toFinset_card_of_nodup h1).symm
    _ ≤ l2.toFinset.card :=
        Finset.card_le_card
          (fun x hx => List.mem_toFinset.mpr (h2 x (List.mem_toFinset.mp hx)))
    _ ≤ l2.length := List.toFinset_card_le l2

theorem filterMap_lookup_names {tm : List (String × PyTable)}
    (wf : ∀ p ∈ tm, (p.2).name = p.1) :
    ∀ (l : List String), (∀ x ∈ l, presentIn tm x) →
      (l.filterMap (fun n => List.lookup n tm)).map PyTable.name = l := by
  intro l
  induction l with
  | nil => simp
  | cons a l ih =>
    intro h
    have ha : presentIn tm a := h a (List.mem_cons_self a l)
    obtain ⟨v, hv⟩ := Option.isSome_iff_exists.mp ha
    simp only [List.filterMap_cons, hv, List.map_cons]
    rw [lookup_name_eq wf hv, ih (fun x hx => h x (List.mem_cons_of_mem _ hx))]

theorem filterMap_lookup_singleton {tm : List (String × PyTable)} (n : String) :
    List.filterMap (fun m => List.lookup m tm) [n] = (List.lookup n tm).toList := by
  cases h : List.lookup n tm <;> simp [List.filterMap_cons, h]

theorem append_singleton_split {α : Type} {l l1 l2 : List α} {t v : α}
    (h : l ++ [v] = l1 ++ t :: l2) :
    (l1 = l ∧ t = v ∧ l2 = []) ∨ ∃ l2', l = l1 ++ t :: l2' ∧ l2 = l2' ++ [v] := by
  rcases List.eq_nil_or_concat l2 with h2 | ⟨L, b, h2⟩
  · subst h2
    have hlen : l.length = l1.length := by
      have := congrArg List.length h
      simpa using this
    obtain ⟨h3, h4⟩ := List.append_inj h hlen
    refine Or.inl ⟨h3.symm, ?_, rfl⟩
    simpa using h4.symm
  · subst h2
    right
    have h' : l ++ [v] = (l1 ++ t :: L) ++ [b] := by
      simpa [List.concat_eq_append, List.append_assoc] using h
    have hlen : l.length = (l1 ++ t :: L).length := by
      have h2 := congrArg List.length h'
      simp only [List.length_append, List.length_cons] at h2 ⊢
      omega
    obtain ⟨h3, h4⟩ := List.append_inj h' hlen
    have hb : v = b := by simpa using h4
    exact ⟨L, h3, by simp [List.concat_eq_append, hb]⟩

theorem acyclic_of_rank {r : String → String → Prop} (rank : String → Nat)
    (h : ∀ a b, r a b → rank b < rank a) : ∀ a, ¬ Relation.TransGen r a a := by
  have key : ∀ a b, Relation.TransGen r a b → rank b < rank a := by
    intro a b hab
    induction hab with
    | single h1 => exact h _ _ h1
    | tail _ h1 ih => exact lt_trans (h _ _ h1) ih
  intro a ha
  exact absurd (key a a ha) (lt_irrefl _)

theorem visit_unfold (tm : List (String × PyTable))
    (td : List (String × List String)) (fuel : Nat) (name : String)
    (st : VisitState) :
    visit tm td (fuel + 1) name st =
      if name ∈ st.temp then st
      else if name ∈ st.visited then st
      else
        ⟨name ::
           (((List.lookup name td).getD []).foldl (visitStep tm td fuel)
             { st with temp := name :: st.temp }).visited,
         (((List.lookup name td).getD []).foldl (visitStep tm td fuel)
             { st with temp := name :: st.temp }).temp.erase name,
         (((List.lookup name td).getD []).foldl (visitStep tm td fuel)
             { st with temp := name :: st.temp }).sorted ++
           (List.lookup name tm).toList⟩ := by
  rw [visit]
  rfl

/-- Main specification of `visit`: it preserves the invariant, restores
`temp_visited`, only extends `visited` and the output, and afterwards its
argument is visited (unless it was skipped as in-progress).  The fuel bound
`|table_map| + 1 ≤ fuel + |temp_visited|` shows the chosen fuel never runs
out. -/
theorem visit_ok (tm : List (String × PyTable))
    (td : List (String × List String))
    (wf : ∀ p ∈ tm, (p.2).name = p.1) :
    ∀ fuel name st, SInv tm td st → presentIn tm name →
      (∀ x ∈ st.temp, Relation.TransGen (DOn tm td) x name) →
      tm.length + 1 ≤ fuel + st.temp.length →
      SInv tm td (visit tm td fuel name st) ∧
      (visit tm td fuel name st).temp = st.temp ∧
      (∃ pre, (visit tm td fuel name st).visited = pre ++ st.visited) ∧
      (∃ post, (visit tm td fuel name st).sorted = st.sorted ++ post) ∧
      (name ∈ st.temp ∨ name ∈ (visit tm td fuel name st).visited) := by
  intro fuel
  induction fuel with
  | zero =>
    intro name st hinv hpres hchain hfuel
    exfalso
    have hsub : ∀ x ∈ st.temp, x ∈ tm.map Prod.fst :=
      fun x hx => (lookup_isSome_iff tm x).mp (hinv.temp_pres x hx)
    have hlen := length_le_of_nodup_subset hinv.temp_nd hsub
    rw [List.length_map] at hlen
    omega
  | succ fuel ih =>
    intro name st hinv hpres hchain hfuel
    by_cases h1 : name ∈ st.temp
    · rw [visit_unfold, if_pos h1]
      exact ⟨hinv, rfl, ⟨[], rfl⟩, ⟨[], (List.append_nil _).symm⟩, Or.inl h1⟩
    by_cases h2 : name ∈ st.visited
    · rw [visit_unfold, if_neg h1, if_pos h2]
      exact ⟨hinv, rfl, ⟨[], rfl⟩, ⟨[], (List.append_nil _).symm⟩, Or.inr h2⟩
    rw [visit_unfold, if_neg h1, if_neg h2]
    have hSt1 : SInv tm td { st with temp := name :: st.temp } :=
      { temp_nd := List.nodup_cons.mpr ⟨h1, hinv.temp_nd⟩
        temp_pres := by
          intro x hx
          rcases List.mem_cons.mp hx with rfl | hx'
          · exact hpres
          · exact hinv.temp_pres x hx'
        vis_nd := hinv.vis_nd
        vis_pres := hinv.vis_pres
        temp_vis := by
          intro x hx
          rcases List.mem_cons.mp hx with rfl | hx'
          · exact h2
          · exact hinv.temp_vis x hx'
        out_def := hinv.out_def
        out_good := hinv.out_good }
    have hfold : ∀ (l : List String), (∀ d ∈ l, d ∈ depsOfIn td name) →
        ∀ s, SInv tm td s → s.temp = name :: st.temp →
        SInv tm td (l.foldl (visitStep tm td fuel) s) ∧
        (l.foldl (visitStep tm td fuel) s).temp = name :: st.temp ∧
        (∃ pre, (l.foldl (visitStep tm td fuel) s).visited = pre ++ s.visited) ∧
        (∃ post, (l.foldl (visitStep tm td fuel) s).sorted = s.sorted ++ post) ∧
        (∀ d ∈ l, presentIn tm d →
          d ∈ (l.foldl (visitStep tm td fuel) s).visited ∨ d ∈ name :: st.temp) := by
      intro l
      induction l with
      | nil =>
        intro _ s hs htemp
        exact ⟨hs, htemp, ⟨[], rfl⟩, ⟨[], (List.append_nil _).symm⟩, by simp⟩
      | cons d l ihl =>
        intro hsubset s hs htemp
        rw [List.foldl_cons]
        by_cases hd : (List.lookup d tm).isSome = true
        · have hstep_eq : visitStep tm td fuel s d = visit tm td fuel d s := by
            unfold visitStep
            rw [if_pos hd]
          rw [hstep_eq]
          have hdpres : presentIn tm d := hd
          have hedge : DOn tm td name d :=
            ⟨hsubset d (List.mem_cons_self d l), hpres, hdpres⟩
          have hchain' : ∀ x ∈ s.temp, Relation.TransGen (DOn tm td) x d := by
            rw [htemp]
            intro x hx
            rcases List.mem_cons.mp hx with rfl | hx'
            · exact Relation.TransGen.single hedge
            · exact (hchain x hx').tail hedge
          have hfuel' : tm.length + 1 ≤ fuel + s.temp.length := by
            rw [htemp]
            simp only [List.length_cons]
            omega
          obtain ⟨hA, hB, ⟨pre1, hC⟩, ⟨post1, hD⟩, hE⟩ :=
            ih d s hs hdpres hchain' hfuel'
          obtain ⟨hA2, hB2, ⟨pre2, hC2⟩, ⟨post2, hD2⟩, hE2⟩ :=
            ihl (fun d' hd' => hsubset d' (List.mem_cons_of_mem _ hd'))
              (visit tm td fuel d s) hA (by rw [hB, htemp])
          refine ⟨hA2, hB2,
            ⟨pre2 ++ pre1, by rw [hC2, hC, List.append_assoc]⟩,
            ⟨post1 ++ post2, by rw [hD2, hD, List.append_assoc]⟩, ?_⟩
          intro d' hd'' hp
          rcases List.mem_cons.mp hd'' with rfl | hmem
          · rcases hE with h | h
            · right
              rw [htemp] at h
              exact h
            · left
              rw [hC2]
              exact List.mem_append_right _ h
          · exact hE2 d' hmem hp
        · have hstep_eq : visitStep tm td fuel s d = s := by
            unfold visitStep
            rw [if_neg hd]
          rw [hstep_eq]
          obtain ⟨hA2, hB2, hC2, hD2, hE2⟩ :=
            ihl (fun d' hd' => hsubset d' (List.mem_cons_of_mem _ hd')) s hs htemp
          refine ⟨hA2, hB2, hC2, hD2, ?_⟩
          intro d' hd'' hp
          rcases List.mem_cons.mp hd'' with rfl | hmem
          · exact absurd hp hd
          · exact hE2 d' hmem hp
    obtain ⟨hF, hFtemp, ⟨pre, hFvis⟩, ⟨post, hFsort⟩, hFall⟩ :=
      hfold ((List.lookup name td).getD []) (fun d hd => hd)
        { st with temp := name :: st.temp } hSt1 rfl
    set F := ((List.lookup name td).getD []).foldl (visitStep tm td fuel)
      { st with temp := name :: st.temp } with hFdef
    have htemp_erase : F.temp.erase name = st.temp := by
      rw [hFtemp]
      exact List.erase_cons_head _ _
    obtain ⟨v, hv⟩ := Option.isSome_iff_exists.mp hpres
    have hvn : v.name = name := lookup_name_eq wf hv
    have hnameF : name ∉ F.visited :=
      hF.temp_vis name (by rw [hFtemp]; exact List.mem_cons_self _ _)
    have hnames : F.sorted.map PyTable.name = F.visited.reverse := by
      rw [hF.out_def]
      exact filterMap_lookup_names wf F.visited.reverse
        (fun x hx => hF.vis_pres x (List.mem_reverse.mp hx))
    refine ⟨?_, htemp_erase, ⟨name :: pre, by rw [hFvis]; simp⟩,
      ⟨post ++ (List.lookup name tm).toList,
        by rw [hFsort, List.append_assoc]⟩,
      Or.inr (List.mem_cons_self _ _)⟩
    refine
      { temp_nd := ?_, temp_pres := ?_, vis_nd := ?_, vis_pres := ?_,
        temp_vis := ?_, out_def := ?_, out_good := ?_ }
    · rw [htemp_erase]
      exact hinv.temp_nd
    · rw [htemp_erase]
      exact hinv.temp_pres
    · exact List.nodup_cons.mpr ⟨hnameF, hF.vis_nd⟩
    · intro x hx
      rcases List.mem_cons.mp hx with rfl | hx'
      · exact hpres
      · exact hF.vis_pres x hx'
    · rw [htemp_erase]
      intro x hx hmem
      rcases List.mem_cons.mp hmem with rfl | hx'
      · exact h1 hx
      · exact hF.temp_vis x (by rw [hFtemp]; exact List.mem_cons_of_mem _ hx) hx'
    · show F.sorted ++ (List.lookup name tm).toList =
        (name :: F.visited).reverse.filterMap (fun n => List.lookup n tm)
      rw [List.reverse_cons, List.filterMap_append, ← hF.out_def,
        filterMap_lookup_singleton]
    · intro hac l1 t l2 hsplit d hd hdp
      have hsplit' : F.sorted ++ [v] = l1 ++ t :: l2 := by
        rw [← hsplit]
        show F.sorted ++ [v] = F.sorted ++ (List.lookup name tm).toList
        rw [hv]
        rfl
      rcases append_singleton_split hsplit' with ⟨hl1, ht, -⟩ | ⟨l2', hsp, -⟩
      · subst ht
        rw [hvn] at hd
        rcases hFall d hd hdp with hdF | hdT
        · rw [hl1, hnames]
          exact List.mem_reverse.mpr hdF
        · rcases List.mem_cons.mp hdT with heq | hdt
          · rw [heq] at hd
            exact absurd (Relation.TransGen.single ⟨hd, hpres, hpres⟩) (hac name)
          · exact absurd ((hchain d hdt).tail ⟨hd, hpres, hdp⟩) (hac d)
      · exact hF.out_good hac l1 t l2' hsp d hd hdp

/-- The toplevel loop establishes the invariant with an empty in-progress
set and visits every key of `table_map`. -/
theorem sortFold_ok (tm : List (String × PyTable))
    (td : List (String × List String))
    (wf : ∀ p ∈ tm, (p.2).name = p.1) :
    SInv tm td (sortFold tm td) ∧ (sortFold tm td).temp = [] ∧
    ∀ n ∈ tm.map Prod.fst, n ∈ (sortFold tm td).visited := by
  have hinit : SInv tm td ⟨[], [], []⟩ :=
    { temp_nd := List.nodup_nil
      temp_pres := by simp
      vis_nd := List.nodup_nil
      vis_pres := by simp
      temp_vis := by simp
      out_def := rfl
      out_good := by
        intro _ l1 t l2 h d hd hp
        exfalso
        cases l1 <;> simp at h }
  suffices h : ∀ (names : List String) (st : VisitState),
      (∀ n ∈ names, presentIn tm n) → SInv tm td st → st.temp = [] →
      SInv tm td (names.foldl
        (fun st name => if name ∈ st.visited then st
                        else visit tm td (tm.length + 1) name st) st) ∧
      (names.foldl
        (fun st name => if name ∈ st.visited then st
                        else visit tm td (tm.length + 1) name st) st).temp = [] ∧
      (∃ pre, (names.foldl
        (fun st name => if name ∈ st.visited then st
                        else visit tm td (tm.length + 1) name st) st).visited =
          pre ++ st.visited) ∧
      (∀ n ∈ names, n ∈ (names.foldl
        (fun st name => if name ∈ st.visited then st
                        else visit tm td (tm.length + 1) name st) st).visited) by
    obtain ⟨a, b, -, c⟩ := h (tm.map Prod.fst) ⟨[], [], []⟩
      (fun n hn => (lookup_isSome_iff tm n).mpr hn) hinit rfl
    exact ⟨a, b, c⟩
  intro names
  induction names with
  | nil =>
    intro st _ hs htemp
    exact ⟨hs, htemp, ⟨[], rfl⟩, by simp⟩
  | cons n ns ihn =>
    intro st hpresn hs htemp
    rw [List.foldl_cons]
    by_cases hn : n ∈ st.visited
    · rw [if_pos hn]
      obtain ⟨a, b, ⟨pre, c⟩, d⟩ :=
        ihn st (fun m hm => hpresn m (List.mem_cons_of_mem _ hm)) hs htemp
      refine ⟨a, b, ⟨pre, c⟩, ?_⟩
      intro m hm
      rcases List.mem_cons.mp hm with heq | hm'
      · rw [c, heq]
        exact List.mem_append_right _ hn
      · exact d m hm'
    · rw [if_neg hn]
      have hpn : presentIn tm n := hpresn n (List.mem_cons_self n ns)
      have hchain0 : ∀ x ∈ st.temp, Relation.TransGen (DOn tm td) x n := by
        rw [htemp]
        simp
      have hfuel0 : tm.length + 1 ≤ (tm.length + 1) + st.temp.length := by omega
      obtain ⟨hA, hB, ⟨pre1, hC⟩, -, hE⟩ :=
        visit_ok tm td wf (tm.length + 1) n st hs hpn hchain0 hfuel0
      have hnv : n ∈ (visit tm td (tm.length + 1) n st).visited := by
        rcases hE with h | h
        · rw [htemp] at h
          simp at h
        · exact h
      obtain ⟨hA2, hB2, ⟨pre2, hC2⟩, hD2⟩ :=
        ihn (visit tm td (tm.length + 1) n st)
          (fun m hm => hpresn m (List.mem_cons_of_mem _ hm)) hA
          (by rw [hB, htemp])
      refine ⟨hA2, hB2, ⟨pre2 ++ pre1, by rw [hC2, hC, List.append_assoc]⟩, ?_⟩
      intro m hm
      rcases List.mem_cons.mp hm with heq | hm'
      · rw [hC2, heq]
        exact List.mem_append_right _ hnv
      · exact hD2 m hm'

theorem any_key_iff {α : Type} (m : List (String × α)) (k : String) :
    (m.any (fun p => p.1 == k)) = true ↔ k ∈ m.map Prod.fst := by
  simp only [List.any_eq_true, List.mem_map, beq_iff_eq]

/-- With duplicate-free names the `table_map` dict is just the
name-indexed list of the input records, in input order. -/
theorem build_table_map_eq_of_nodup (tables : List PyTable)
    (hnd : (tables.map PyTable.name).Nodup) :
    build_table_map tables = tables.map (fun t => (t.name, t)) := by
  suffices h : ∀ (l : List PyTable) (m : List (String × PyTable)),
      (∀ t ∈ l, t.name ∉ m.map Prod.fst) → (l.map PyTable.name).Nodup →
      l.foldl (fun m t => dictInsert m t.name t) m =
        m ++ l.map (fun t => (t.name, t)) by
    simpa using h tables [] (by simp) hnd
  intro l
  induction l with
  | nil =>
    intro m _ _
    simp
  | cons t l ihl =>
    intro m hdisj hnd'
    rw [List.map_cons] at hnd'
    obtain ⟨hhead, htail⟩ := List.nodup_cons.mp hnd'
    rw [List.foldl_cons]
    have hni : t.name ∉ m.map Prod.fst := hdisj t (List.mem_cons_self t l)
    have hins : dictInsert m t.name t = m ++ [(t.name, t)] := by
      unfold dictInsert
      rw [if_neg (fun hc => hni ((any_key_iff m t.name).mp hc))]
    rw [hins, ihl (m ++ [(t.name, t)]) ?_ htail]
    · simp
    · intro u hu
      rw [List.map_append]
      intro hmem
      rcases List.mem_append.mp hmem with h | h
      · exact hdisj u (List.mem_cons_of_mem _ hu) h
      · simp at h
        exact hhead (h ▸ List.mem_map_of_mem PyTable.name hu)

theorem lookup_map_pair_self (l : List PyTable)
    (hnd : (l.map PyTable.name).Nodup) :
    ∀ t ∈ l, List.lookup t.name (l.map (fun u => (u.name, u))) = some t := by
  induction l with
  | nil => simp
  | cons u l ihl =>
    rw [List.map_cons] at hnd
    obtain ⟨hhead, htail⟩ := List.nodup_cons.mp hnd
    intro t ht
    rcases List.mem_cons.mp ht with heq | ht'
    · rw [heq, List.map_cons, lookup_cons_ite, if_pos (by simp)]
    · rw [List.map_cons, lookup_cons_ite,
        if_neg (by
          simp only [beq_iff_eq]
          intro he
          exact hhead (he ▸ List.mem_map_of_mem PyTable.name ht'))]
      exact ihl htail t ht'

theorem filterMap_lookup_self {tm : List (String × PyTable)} :
    ∀ (l : List PyTable), (∀ t ∈ l, List.lookup t.name tm = some t) →
      (l.map PyTable.name).filterMap (fun n => List.lookup n tm) = l := by
  intro l
  induction l with
  | nil => simp
  | cons t l ihl =>
    intro h
    rw [List.map_cons]
    simp only [List.filterMap_cons, h t (List.mem_cons_self t l)]
    rw [ihl (fun u hu => h u (List.mem_cons_of_mem _ hu))]

/-- C1: for any input set of table records with distinct names whose
derived REFERENCES-dependency graph is acyclic, every table in the output
of `sort_tables_by_dependencies` appears after all tables it references
that are also present in the input set: wherever the output splits as
`l1 ++ t :: l2`, every present dependency of `t` already occurs among the
names of `l1`. -/
theorem sort_tables_by_dependencies_topological (tables : List PyTable)
    (hnd : (tables.map PyTable.name).Nodup)
    (hac : ∀ a, ¬ Relation.TransGen (dependsOnT tables) a a) :
    ∀ l1 t l2, sort_tables_by_dependencies tables = l1 ++ t :: l2 →
      ∀ d ∈ tableDepsOf tables t.name, presentTable tables d = true →
        d ∈ l1.map PyTable.name := by
  intro l1 t l2 hsplit d hd hp
  obtain ⟨hinv, -, -⟩ :=
    sortFold_ok (build_table_map tables) (build_table_deps tables)
      (build_table_map_wf tables)
  exact hinv.out_good hac l1 t l2 hsplit d hd hp

/-- The derived graph of the orders/customers scenario is acyclic: ranking
`orders` above `customers` decreases along every edge. -/
theorem scenario_acyclic :
    ∀ a, ¬ Relation.TransGen (dependsOnT [ordersTable, customersTable]) a a := by
  apply acyclic_of_rank (fun s => if s = "orders" then 1 else 0)
  intro a b hab
  obtain ⟨hb, hpa, hpb⟩ := hab
  have hkeys : (build_table_map [ordersTable, customersTable]).map Prod.fst =
      ["orders", "customers"] := by decide
  have ha : a = "orders" ∨ a = "customers" := by
    have h := (lookup_isSome_iff _ a).mp hpa
    rw [hkeys] at h
    simpa using h
  rcases ha with rfl | rfl
  · have hdeps : tableDepsOf [ordersTable, customersTable] "orders" =
        ["customers"] := by decide
    rw [hdeps] at hb
    simp at hb
    rw [hb]
    decide
  · have hdeps : tableDepsOf [ordersTable, customersTable] "customers" =
        ([] : List String) := by decide
    rw [hdeps] at hb
    simp at hb

/-- C1 witness: on the concrete scenario (`orders` with a foreign key to
`customers`, `customers` with none) the sequencer emits `customers` before
`orders`, and the topological-order theorem applies at the split
`[customers] ++ orders :: []` with dependency `customers`. -/
theorem sort_tables_topological_witness :
    sort_tables_by_dependencies [ordersTable, customersTable] =
      [customersTable, ordersTable] ∧
    "customers" ∈ [customersTable].map PyTable.name :=
  ⟨by decide,
   sort_tables_by_dependencies_topological [ordersTable, customersTable]
     (by decide) scenario_acyclic [customersTable] ordersTable []
     (by decide) "customers" (by decide) (by decide)⟩

/-- C10: for every input list of well-formed table records with distinct
names, `sort_tables_by_dependencies` returns a permutation of the input —
every record appears exactly once and nothing else appears — with no
acyclicity assumption. -/
theorem sort_tables_by_dependencies_perm (tables : List PyTable)
    (hnd : (tables.map PyTable.name).Nodup) :
    (sort_tables_by_dependencies tables).Perm tables := by
  obtain ⟨hinv, -, hcover⟩ :=
    sortFold_ok (build_table_map tables) (build_table_deps tables)
      (build_table_map_wf tables)
  have hmap : build_table_map tables = tables.map (fun t => (t.name, t)) :=
    build_table_map_eq_of_nodup tables hnd
  have hkeys : (build_table_map tables).map Prod.fst =
      tables.map PyTable.name := by
    rw [hmap, List.map_map]
    rfl
  have hvsub : ∀ x ∈ (sortFold (build_table_map tables)
      (build_table_deps tables)).visited,
      x ∈ (build_table_map tables).map Prod.fst :=
    fun x hx => (lookup_isSome_iff _ x).mp (hinv.vis_pres x hx)
  have hknd : ((build_table_map tables).map Prod.fst).Nodup := by
    rw [hkeys]
    exact hnd
  have hperm : (sortFold (build_table_map tables)
      (build_table_deps tables)).visited.Perm
      ((build_table_map tables).map Prod.fst) :=
    (List.perm_ext_iff_of_nodup hinv.vis_nd hknd).mpr
      (fun a => ⟨fun h => hvsub a h, fun h => hcover a h⟩)
  have hperm2 : (sortFold (build_table_map tables)
      (build_table_deps tables)).visited.reverse.Perm
      (tables.map PyTable.name) := by
    rw [← hkeys]
    exact (List.reverse_perm _).trans hperm
  have hlu : ∀ t ∈ tables,
      List.lookup t.name (build_table_map tables) = some t := by
    rw [hmap]
    exact lookup_map_pair_self tables hnd
  show ((sortFold (build_table_map tables)
      (build_table_deps tables)).sorted).Perm tables
  rw [hinv.out_def]
  have h3 := filterMap_lookup_self tables hlu
  have h4 : ((tables.map PyTable.name).filterMap
      (fun n => List.lookup n (build_table_map tables))).Perm tables := by
    rw [h3]
  exact (List.Perm.filterMap
    (fun n => List.lookup n (build_table_map tables)) hperm2).trans h4

/-- C10 witness: a permutation at a concrete input containing a dependency
cycle and a reference to an absent table. -/
theorem sort_tables_perm_witness :
    (sort_tables_by_dependencies [cycleTableA, cycleTableB, danglingTable]).Perm
      [cycleTableA, cycleTableB, danglingTable] :=
  sort_tables_by_dependencies_perm [cycleTableA, cycleTableB, danglingTable]
    (by decide)

end StrataSpec
